import Mathlib

/-!
Shallow embedding of the snapbox-backend Express handlers (src/index.js).

The verification-code store `verificationCodes` is a JS `Map` from email to
code string; we model it as an association list with unique-key update
semantics (`mapGet`, `mapSet`, `mapDelete`).  Each call to
`setTimeout(() => verificationCodes.delete(email), 5 * 60 * 1000)` is modelled
as a pending timer `(email, fireTime)`; `advanceTo` fires every timer that is
due at or before a given instant (each firing performs the unconditional
`Map.delete` the callback performs).  Request-body fields are `Option String`
(absent = `none`), and the JS falsiness test `!x` on such a field is `falsy`.
External outcomes (the Supabase admin query, the user-activity insert, SMTP
delivery) are parameters; database and storage writes the handlers attempt are
returned as an explicit `DbWrite` trace.
-/

/-- JS falsiness of an optional string field: `undefined` and the empty string
are falsy, every other string is truthy. -/
def falsy : Option String → Bool
  | none => true
  | some s => s == ""

/-- JS String.prototype.endsWith, modelled as a suffix test on the character
sequences of the two strings. -/
def jsEndsWith (s p : String) : Bool := p.data.isSuffixOf s.data

/-- Lookup in the JS `Map` (modelled as an association list): `Map.get`. -/
def mapGet (m : List (String × String)) (k : String) : Option String :=
  match m with
  | [] => none
  | p :: rest => if p.1 = k then some p.2 else mapGet rest k

/-- Update in the JS `Map`: `Map.set` replaces the value of an existing key in
place and appends a fresh key at the end. -/
def mapSet (m : List (String × String)) (k v : String) : List (String × String) :=
  match m with
  | [] => [(k, v)]
  | p :: rest => if p.1 = k then (k, v) :: rest else p :: mapSet rest k v

/-- Deletion in the JS `Map`: `Map.delete` removes the entry of the key. -/
def mapDelete (m : List (String × String)) (k : String) : List (String × String) :=
  m.filter (fun p => !(p.1 = k : Bool))

/-- State of the in-process store: the `verificationCodes` map together with
the pending `setTimeout` deletions, each recorded as (email, fire time in
milliseconds). -/
structure SysState where
  codes : List (String × String)
  timers : List (String × Nat)
deriving Repr, DecidableEq

/-- Fire every pending timer that is due at or before instant `t`: each due
timer unconditionally deletes the entry of its email from the map, and due
timers are discarded. -/
def advanceTo (s : SysState) (t : Nat) : SysState :=
  { codes := s.codes.filter
      (fun p => !(s.timers.any (fun tm => decide (tm.2 ≤ t) && (tm.1 = p.1 : Bool)))),
    timers := s.timers.filter (fun tm => !(decide (tm.2 ≤ t))) }

/-- Writes the handlers can attempt against the backend service (relational
tables and object storage). -/
inductive DbWrite
  | insertUserActivity (email : String) (login_time : String)
  | insertAdmin (email : String)
  | storageUpload (path : String) (size : Nat)
deriving Repr, DecidableEq

/-- The configured five-minute expiry delay, in milliseconds. -/
def fiveMinutesMs : Nat := 5 * 60 * 1000

/-- The verification code string: `Math.floor(100000 + Math.random() * 900000)`
stringified, where `r` stands for `Math.floor(Math.random() * 900000)`, a
natural number below 900000. -/
def generatedCodeNat (r : Nat) : Nat := 100000 + r

/-- String form of the generated verification code (`.toString()`). -/
def generatedCode (r : Nat) : String := toString (generatedCodeNat r)

/-- Responses of POST /send-verification-code. -/
inductive SendResp
  | invalidEmail
  | emailError
  | ok
deriving Repr, DecidableEq

/-- HTTP status of each /send-verification-code response. -/
def SendResp.status : SendResp → Nat
  | .invalidEmail => 400
  | .emailError => 500
  | .ok => 200

/-- Outcome of one /send-verification-code request: the response, the store
state after the request, the emails the handler asked SMTP to deliver
(recipient and embedded code), and the database writes it attempted. -/
structure SendOutcome where
  resp : SendResp
  state : SysState
  emailAttempts : List (String × String)
  dbWrites : List DbWrite
deriving Repr, DecidableEq

/-- Handler of POST /send-verification-code at instant `now`: validates the
email field, generates the six-digit code, stores it, schedules the deletion
timer five minutes ahead, then attempts the SMTP delivery (`smtpOk` tells
whether `sendMail` succeeds). -/
def sendVerificationCode (s : SysState) (now : Nat) (email : Option String)
    (r : Nat) (smtpOk : Bool) : SendOutcome :=
  if falsy email || !(jsEndsWith (email.getD "") "@fcbhealth.com") then
    ⟨.invalidEmail, s, [], []⟩
  else
    let e := email.getD ""
    let code := generatedCode r
    let s₂ : SysState :=
      ⟨mapSet s.codes e code, s.timers ++ [(e, now + fiveMinutesMs)]⟩
    if smtpOk then ⟨.ok, s₂, [(e, code)], []⟩
    else ⟨.emailError, s₂, [(e, code)], []⟩

/-- The session token produced by `jwt.sign({ email, isAdmin }, JWT_SECRET,
{ expiresIn: '1h' })`: payload fields, signing secret, expiry. -/
structure Jwt where
  email : String
  isAdmin : Bool
  secret : String
  expiresIn : String
deriving Repr, DecidableEq

/-- Abstract `jwt.sign`. -/
def jwtSign (email : String) (isAdmin : Bool) (secret : String)
    (expiresIn : String) : Jwt :=
  ⟨email, isAdmin, secret, expiresIn⟩

/-- Responses of POST /verify-code. -/
inductive VerifyResp
  | missingFields
  | expiredOrNotFound
  | wrongCode
  | adminCheckError
  | dbInsertError
  | ok (email : String) (token : Jwt) (isAdmin : Bool)
deriving Repr, DecidableEq

/-- HTTP status of each /verify-code response. -/
def VerifyResp.status : VerifyResp → Nat
  | .missingFields => 400
  | .expiredOrNotFound => 400
  | .wrongCode => 400
  | .adminCheckError => 500
  | .dbInsertError => 500
  | .ok _ _ _ => 200

/-- Outcome of one /verify-code request: the response, the
`verificationCodes` map after the request, and the database writes the
handler attempted. -/
structure VerifyOutcome where
  resp : VerifyResp
  store : List (String × String)
  dbWrites : List DbWrite
deriving Repr, DecidableEq

/-- Handler of POST /verify-code: requires both fields, compares the
submitted code with the stored one, deletes the entry on a match, queries the
admins table (`adminQueryOk` tells whether the query succeeds, `admins` is
the email column of the table), signs the JWT and inserts the login row into
user_activity (`dbInsertOk` tells whether the insert succeeds,
`loginTime` is the formatted current time). -/
def verifyCode (store : List (String × String)) (email code : Option String)
    (adminQueryOk : Bool) (admins : List String) (dbInsertOk : Bool)
    (jwtSecret : String) (loginTime : String) : VerifyOutcome :=
  if falsy email || falsy code then ⟨.missingFields, store, []⟩
  else
    let e := email.getD ""
    let c := code.getD ""
    match mapGet store e with
    | none => ⟨.expiredOrNotFound, store, []⟩
    | some storedCode =>
      if storedCode ≠ c then ⟨.wrongCode, store, []⟩
      else
        let store₂ := mapDelete store e
        if !adminQueryOk then ⟨.adminCheckError, store₂, []⟩
        else
          let adminRows := admins.filter (fun a => a == e)
          let isAdmin := !adminRows.isEmpty
          let token := jwtSign e isAdmin jwtSecret "1h"
          let write := DbWrite.insertUserActivity e loginTime
          if dbInsertOk then ⟨.ok e token isAdmin, store₂, [write]⟩
          else ⟨.dbInsertError, store₂, [write]⟩

/-- Row of the user_activity table; `login_time` is a timestamp, modelled on a
totally ordered clock. -/
structure ActivityRow where
  email : String
  login_time : Nat
deriving Repr, DecidableEq

/-- The relational tables the backend uses. -/
structure Db where
  user_activity : List ActivityRow
  admins : List String
  urls_snapbox : List (String × String × String)
  uploads : List (String × Nat)
deriving Repr, DecidableEq

/-- The expression passed to `cron.schedule`. -/
def cronExpr : String := "0 0 * * *"

/-- Modelled from node-cron semantics of the five-field expression
"0 0 * * *": it matches an instant exactly when its minute is 0 and its hour
is 0, on every day of month, month and day of week. -/
def cronFires (minute hour : Nat) : Bool := minute == 0 && hour == 0

/-- Body of the scheduled cleanup job: delete from user_activity every row
whose login_time is strictly below `now` (`.lt('login_time', now)`), leaving
the other tables alone. -/
def cleanupJob (db : Db) (now : Nat) : Db :=
  { db with
    user_activity := db.user_activity.filter (fun row => !(decide (row.login_time < now))) }

/-- Mimetypes accepted by the multer fileFilter. -/
def allowedTypes : List String :=
  ["image/jpeg", "image/png", "image/webp", "video/mp4", "video/quicktime"]

/-- The configured `limits.fileSize`, in bytes. -/
def fileSizeLimit : Nat := 25 * 1024 * 1024

/-- A file arriving through a multipart upload. -/
structure UpFile where
  originalname : String
  mimetype : String
  size : Nat
deriving Repr, DecidableEq

/-- What multer hands to the route handler for one submitted file. -/
inductive MulterResult
  | accepted (f : UpFile)
  | filtered
  | sizeError
deriving Repr, DecidableEq

/-- The configured multer middleware: fileFilter runs first, and
`cb(null, false)` silently skips a disallowed mimetype (the handler then runs
with `req.file` undefined, `filtered`); an accepted file is buffered subject
to `limits.fileSize`, and exceeding carries an error past the handler
(`sizeError`); otherwise the handler sees the file (`accepted`). -/
def multerProcess (f : UpFile) : MulterResult :=
  if !(allowedTypes.contains f.mimetype) then .filtered
  else if fileSizeLimit < f.size then .sizeError
  else .accepted f

/-- The uncaught JS exceptions the embedded handlers can raise. -/
inductive JsError
  | typeError
deriving Repr, DecidableEq

/-- Responses of POST /add-admin. -/
inductive AddAdminResp
  | badDomain
  | dbError
  | ok
deriving Repr, DecidableEq

/-- HTTP status of each /add-admin response. -/
def AddAdminResp.status : AddAdminResp → Nat
  | .badDomain => 400
  | .dbError => 500
  | .ok => 200

/-- Handler of POST /add-admin: destructures `email` from the body and calls
`email.endsWith` on it before any presence check, so an absent field raises a
TypeError out of the handler; otherwise it validates the domain and inserts
the email into the admins table (`dbOk` tells whether the insert succeeds). -/
def addAdmin (email : Option String) (dbOk : Bool) :
    Except JsError (AddAdminResp × List DbWrite) :=
  match email with
  | none => .error .typeError
  | some e =>
    if !(jsEndsWith e "@fcbhealth.com") then .ok (.badDomain, [])
    else if dbOk then .ok (.ok, [.insertAdmin e]) else .ok (.dbError, [.insertAdmin e])

/-! Helper lemmas about the map operations. -/

theorem mapGet_filter_eq (m : List (String × String)) (P : String × String → Bool)
    (k : String) (h : ∀ v, P (k, v) = true) : mapGet (m.filter P) k = mapGet m k := by
  induction m with
  | nil => rfl
  | cons p rest ih =>
    rcases p with ⟨a, b⟩
    by_cases hk : a = k
    · subst hk
      rw [List.filter_cons, h b]
      simp [mapGet]
    · rw [List.filter_cons]
      cases hP : P (a, b)
      · simpa [mapGet, hk] using ih
      · simp [mapGet, hk, ih]

theorem mapGet_filter_none (m : List (String × String)) (P : String × String → Bool)
    (k : String) (h : ∀ v, P (k, v) = false) : mapGet (m.filter P) k = none := by
  induction m with
  | nil => rfl
  | cons p rest ih =>
    rcases p with ⟨a, b⟩
    by_cases hk : a = k
    · subst hk
      rw [List.filter_cons, h b]
      simpa using ih
    · rw [List.filter_cons]
      cases hP : P (a, b)
      · simpa using ih
      · simp [mapGet, hk, ih]

theorem mapGet_mapDelete_self (m : List (String × String)) (k : String) :
    mapGet (mapDelete m k) k = none := by
  refine mapGet_filter_none m _ k (fun v => ?_)
  simp

theorem mapGet_mapSet_self (m : List (String × String)) (k v : String) :
    mapGet (mapSet m k v) k = some v := by
  induction m with
  | nil => simp [mapSet, mapGet]
  | cons p rest ih =>
    by_cases hk : p.1 = k
    · simp [mapSet, hk, mapGet]
    · simp [mapSet, hk, mapGet, ih]

theorem mapGet_advanceTo_of_no_due (s : SysState) (t : Nat) (k : String)
    (h : ∀ tm ∈ s.timers, tm.1 = k → ¬ tm.2 ≤ t) :
    mapGet (advanceTo s t).codes k = mapGet s.codes k := by
  refine mapGet_filter_eq s.codes _ k (fun v => ?_)
  simp only [Bool.not_eq_true']
  rw [List.any_eq_false]
  rintro ⟨a, ft⟩ hmem
  simp only [Bool.and_eq_true, decide_eq_true_eq, Bool.not_eq_true]
  intro hcon
  exact absurd hcon.1 (h (a, ft) hmem hcon.2)

theorem mapGet_advanceTo_of_due (s : SysState) (t : Nat) (k : String) (tm : String × Nat)
    (hmem : tm ∈ s.timers) (hk : tm.1 = k) (hdue : tm.2 ≤ t) :
    mapGet (advanceTo s t).codes k = none := by
  refine mapGet_filter_none s.codes _ k (fun v => ?_)
  simp only [Bool.not_eq_false']
  rw [List.any_eq_true]
  exact ⟨tm, hmem, by simp [hk, hdue]⟩

theorem verifyCode_store_on_match (store : List (String × String)) (e c : String)
    (aq : Bool) (ad : List String) (db : Bool) (sec lt : String)
    (he : e ≠ "") (hc : c ≠ "") (hstored : mapGet store e = some c) :
    (verifyCode store (some e) (some c) aq ad db sec lt).store = mapDelete store e := by
  simp only [verifyCode, falsy]
  rw [if_neg (by simp [he, hc])]
  simp only [Option.getD_some]
  rw [hstored]
  simp only [ne_eq, not_true_eq_false, if_false, ite_not]
  cases aq <;> cases db <;> simp

/-- C1: a /verify-code request whose submitted code equals the stored code
removes the entry of that email from the store, so a second /verify-code
request with the same email and the same code returns the 400
expired-or-not-found response: the code is consumed exactly once. -/
theorem verify_code_single_use
    (store : List (String × String)) (e c : String)
    (aq₁ : Bool) (ad₁ : List String) (db₁ : Bool) (sec₁ lt₁ : String)
    (aq₂ : Bool) (ad₂ : List String) (db₂ : Bool) (sec₂ lt₂ : String)
    (he : e ≠ "") (hc : c ≠ "") (hstored : mapGet store e = some c) :
    mapGet (verifyCode store (some e) (some c) aq₁ ad₁ db₁ sec₁ lt₁).store e = none ∧
    (verifyCode (verifyCode store (some e) (some c) aq₁ ad₁ db₁ sec₁ lt₁).store
        (some e) (some c) aq₂ ad₂ db₂ sec₂ lt₂).resp = .expiredOrNotFound ∧
    VerifyResp.status .expiredOrNotFound = 400 := by
  have h₁ := verifyCode_store_on_match store e c aq₁ ad₁ db₁ sec₁ lt₁ he hc hstored
  have h₂ : mapGet (verifyCode store (some e) (some c) aq₁ ad₁ db₁ sec₁ lt₁).store e
      = none := by rw [h₁]; exact mapGet_mapDelete_self store e
  have h₃ : (verifyCode (mapDelete store e) (some e) (some c) aq₂ ad₂ db₂ sec₂ lt₂).resp
      = .expiredOrNotFound := by
    simp only [verifyCode, falsy]
    rw [if_neg (by simp [he, hc])]
    simp only [Option.getD_some]
    rw [mapGet_mapDelete_self store e]
  exact ⟨h₂, by rw [h₁]; exact h₃, rfl⟩

/-- C1 witness at a concrete store and request. -/
theorem verify_code_single_use_witness :
    mapGet (verifyCode [("u@fcbhealth.com", "123456")] (some "u@fcbhealth.com")
        (some "123456") true [] true "s" "t").store "u@fcbhealth.com" = none ∧
    (verifyCode (verifyCode [("u@fcbhealth.com", "123456")] (some "u@fcbhealth.com")
        (some "123456") true [] true "s" "t").store (some "u@fcbhealth.com")
        (some "123456") true [] true "s" "t").resp = .expiredOrNotFound ∧
    VerifyResp.status .expiredOrNotFound = 400 :=
  verify_code_single_use [("u@fcbhealth.com", "123456")] "u@fcbhealth.com" "123456"
    true [] true "s" "t" true [] true "s" "t"
    (by decide) (by decide) (by decide)

/-- C3: a /verify-code request whose submitted code differs from the stored
code of the email answers with status 400, leaves the store unchanged and
attempts no database write. -/
theorem verify_code_wrong_code_unchanged
    (store : List (String × String)) (e sc : String) (c : Option String)
    (aq : Bool) (ad : List String) (db : Bool) (sec lt : String)
    (he : e ≠ "") (hstored : mapGet store e = some sc) (hne : c ≠ some sc) :
    (verifyCode store (some e) c aq ad db sec lt).resp.status = 400 ∧
    (verifyCode store (some e) c aq ad db sec lt).store = store ∧
    (verifyCode store (some e) c aq ad db sec lt).dbWrites = [] := by
  match c with
  | none => simp [verifyCode, falsy, VerifyResp.status]
  | some s =>
    by_cases hs : s = ""
    · subst hs
      simp [verifyCode, falsy, VerifyResp.status]
    · have hsne : sc ≠ s := fun h => hne (by rw [h])
      simp only [verifyCode, falsy]
      rw [if_neg (by simp [he, hs])]
      simp only [Option.getD_some]
      rw [hstored]
      simp [hsne, VerifyResp.status]

/-- C3 witness at a concrete store and request. -/
theorem verify_code_wrong_code_unchanged_witness :
    (verifyCode [("u@fcbhealth.com", "123456")] (some "u@fcbhealth.com")
        (some "999999") true [] true "s" "t").resp.status = 400 ∧
    (verifyCode [("u@fcbhealth.com", "123456")] (some "u@fcbhealth.com")
        (some "999999") true [] true "s" "t").store = [("u@fcbhealth.com", "123456")] ∧
    (verifyCode [("u@fcbhealth.com", "123456")] (some "u@fcbhealth.com")
        (some "999999") true [] true "s" "t").dbWrites = [] :=
  verify_code_wrong_code_unchanged [("u@fcbhealth.com", "123456")] "u@fcbhealth.com"
    "123456" (some "999999") true [] true "s" "t"
    (by decide) (by decide) (by decide)

/-- C4: when the submitted code matches the stored one and the admin lookup
succeeds (and the login-row insert succeeds, which every 200 response also
requires), the handler returns 200 with success, the email, the isAdmin flag
(true exactly when the email is in the admins table) and a JWT signed with
the configured secret whose payload holds the email and the isAdmin flag,
expiring in one hour. -/
theorem verify_code_success_token
    (store : List (String × String)) (e c : String) (admins : List String)
    (sec lt : String)
    (he : e ≠ "") (hc : c ≠ "") (hstored : mapGet store e = some c) :
    ∃ isAdm : Bool,
      (verifyCode store (some e) (some c) true admins true sec lt).resp
        = .ok e (jwtSign e isAdm sec "1h") isAdm ∧
      (isAdm = true ↔ e ∈ admins) ∧
      (verifyCode store (some e) (some c) true admins true sec lt).resp.status = 200 := by
  refine ⟨!(admins.filter (fun a => a == e)).isEmpty, ?_, ?_, ?_⟩
  · simp only [verifyCode, falsy]
    rw [if_neg (by simp [he, hc])]
    simp only [Option.getD_some]
    rw [hstored]
    simp
  · constructor
    · intro hne
      rw [Bool.not_eq_true', List.isEmpty_eq_false_iff_exists_mem] at hne
      obtain ⟨a, ha⟩ := hne
      obtain ⟨hmem, heq⟩ := List.mem_filter.mp ha
      exact eq_of_beq heq ▸ hmem
    · intro hmem
      rw [Bool.not_eq_true', List.isEmpty_eq_false_iff_exists_mem]
      exact ⟨e, List.mem_filter.mpr ⟨hmem, by simp⟩⟩
  · have : (verifyCode store (some e) (some c) true admins true sec lt).resp
        = .ok e (jwtSign e (!(admins.filter (fun a => a == e)).isEmpty) sec "1h")
          (!(admins.filter (fun a => a == e)).isEmpty) := by
      simp only [verifyCode, falsy]
      rw [if_neg (by simp [he, hc])]
      simp only [Option.getD_some]
      rw [hstored]
      simp
    rw [this]
    rfl

/-- C4 witness at a concrete store, request and admins table. -/
theorem verify_code_success_token_witness :
    ∃ isAdm : Bool,
      (verifyCode [("u@fcbhealth.com", "123456")] (some "u@fcbhealth.com")
          (some "123456") true ["u@fcbhealth.com"] true "sec" "t").resp
        = .ok "u@fcbhealth.com" (jwtSign "u@fcbhealth.com" isAdm "sec" "1h") isAdm ∧
      (isAdm = true ↔ "u@fcbhealth.com" ∈ ["u@fcbhealth.com"]) ∧
      (verifyCode [("u@fcbhealth.com", "123456")] (some "u@fcbhealth.com")
          (some "123456") true ["u@fcbhealth.com"] true "sec" "t").resp.status = 200 :=
  verify_code_success_token [("u@fcbhealth.com", "123456")] "u@fcbhealth.com" "123456"
    ["u@fcbhealth.com"] "sec" "t" (by decide) (by decide) (by decide)

/-- C8: the send handler attempts no database or storage write at all, and
every write the verify handler attempts is the user_activity login-row
insert, carrying only the email and the login time (never the code); a 200
response attempts exactly that one insert. -/
theorem handlers_no_code_persistence
    (s : SysState) (now : Nat) (email : Option String) (r : Nat) (smtpOk : Bool)
    (store : List (String × String)) (email₂ code : Option String)
    (aq : Bool) (ad : List String) (db : Bool) (sec lt : String) :
    (sendVerificationCode s now email r smtpOk).dbWrites = [] ∧
    (∀ w ∈ (verifyCode store email₂ code aq ad db sec lt).dbWrites,
        w = .insertUserActivity (email₂.getD "") lt) ∧
    ((verifyCode store email₂ code aq ad db sec lt).resp.status = 200 →
      (verifyCode store email₂ code aq ad db sec lt).dbWrites
        = [.insertUserActivity (email₂.getD "") lt]) := by
  refine ⟨?_, ?_, ?_⟩
  · simp only [sendVerificationCode]
    split
    · rfl
    · split <;> rfl
  · simp only [verifyCode]
    split
    · simp
    · split
      · simp
      · split
        · simp
        · split
          · simp
          · split <;> simp
  · simp only [verifyCode]
    split
    · simp [VerifyResp.status]
    · split
      · simp [VerifyResp.status]
      · split
        · simp [VerifyResp.status]
        · split
          · simp [VerifyResp.status]
          · split <;> simp [VerifyResp.status]

/-- C8 witness: a successful concrete verify attempts exactly the login-row
insert, and a concrete send attempts no write. -/
theorem handlers_no_code_persistence_witness :
    (verifyCode [("u@fcbhealth.com", "123456")] (some "u@fcbhealth.com")
        (some "123456") true [] true "s" "t").dbWrites
      = [DbWrite.insertUserActivity "u@fcbhealth.com" "t"] :=
  (handlers_no_code_persistence ⟨[], []⟩ 0 none 0 true
      [("u@fcbhealth.com", "123456")] (some "u@fcbhealth.com") (some "123456")
      true [] true "s" "t").2.2 (by decide)

/-- C6: a /send-verification-code request whose email field is absent, empty
or does not end in the organization domain gets the 400 response, and the
handler stores nothing, schedules nothing, asks SMTP for nothing and writes
nothing: a code is generated and stored only for emails passing the
validation. -/
theorem send_code_validation
    (s : SysState) (now : Nat) (email : Option String) (r : Nat) (smtpOk : Bool)
    (h : falsy email = true ∨ jsEndsWith (email.getD "") "@fcbhealth.com" = false) :
    (sendVerificationCode s now email r smtpOk).resp = .invalidEmail ∧
    SendResp.status .invalidEmail = 400 ∧
    (sendVerificationCode s now email r smtpOk).state = s ∧
    (sendVerificationCode s now email r smtpOk).emailAttempts = [] ∧
    (sendVerificationCode s now email r smtpOk).dbWrites = [] := by
  have hcond : (falsy email || !(jsEndsWith (email.getD "") "@fcbhealth.com")) = true := by
    rcases h with h | h <;> simp [h]
  simp [sendVerificationCode, hcond, SendResp.status]

/-- C6 witness: an absent email field and a wrong-domain email both get the
400 response and leave the store alone. -/
theorem send_code_validation_witness :
    (sendVerificationCode ⟨[], []⟩ 0 none 0 true).resp = .invalidEmail ∧
    SendResp.status .invalidEmail = 400 ∧
    (sendVerificationCode ⟨[], []⟩ 0 none 0 true).state = (⟨[], []⟩ : SysState) ∧
    (sendVerificationCode ⟨[], []⟩ 0 none 0 true).emailAttempts = [] ∧
    (sendVerificationCode ⟨[], []⟩ 0 none 0 true).dbWrites = [] :=
  send_code_validation ⟨[], []⟩ 0 none 0 true (Or.inl (by decide))

/-- C2 counterexample: send a first code at instant 0 and a second one to the
same email at instant 60000 (both within the five-minute window).  The second
store operation happens at 60000, so the claim promises the entry until
instant 60000 + fiveMinutesMs = 360000 unless consumed; but the timer of the
first send fires at 300000 and deletes the entry, which is gone at 300000
although nothing consumed it. -/
theorem send_code_expiry_counterexample :
    mapGet (sendVerificationCode
        (sendVerificationCode ⟨[], []⟩ 0 (some "u@fcbhealth.com") 0 true).state
        60000 (some "u@fcbhealth.com") 1 true).state.codes "u@fcbhealth.com"
      = some (generatedCode 1) ∧
    mapGet (advanceTo (sendVerificationCode
        (sendVerificationCode ⟨[], []⟩ 0 (some "u@fcbhealth.com") 0 true).state
        60000 (some "u@fcbhealth.com") 1 true).state 300000).codes "u@fcbhealth.com"
      = none ∧
    (300000 : Nat) < 60000 + fiveMinutesMs := by
  refine ⟨?_, ?_, by decide⟩ <;> decide

/-- C2 amended: a stored entry is deleted when the earliest pending timer of
its email fires.  When the email has no other pending timer, the entry of a
send at instant `now` survives every instant before `now + fiveMinutesMs`
(unless consumed) and is gone at `now + fiveMinutesMs`; a second send to the
same email within the window leaves the earlier timer pending, which deletes
the newer entry before its own five minutes have elapsed (as the
counterexample shows). -/
theorem send_code_expiry_amended
    (s : SysState) (now t : Nat) (e : String) (r : Nat) (smtpOk : Bool)
    (he : e ≠ "") (hdom : jsEndsWith e "@fcbhealth.com" = true)
    (hfresh : ∀ tm ∈ s.timers, tm.1 ≠ e) :
    (t < now + fiveMinutesMs →
      mapGet (advanceTo (sendVerificationCode s now (some e) r smtpOk).state t).codes e
        = some (generatedCode r)) ∧
    mapGet (advanceTo (sendVerificationCode s now (some e) r smtpOk).state
        (now + fiveMinutesMs)).codes e = none := by
  have hstate : (sendVerificationCode s now (some e) r smtpOk).state
      = ⟨mapSet s.codes e (generatedCode r), s.timers ++ [(e, now + fiveMinutesMs)]⟩ := by
    simp only [sendVerificationCode, falsy, Option.getD_some]
    rw [if_neg (by simp [he, hdom])]
    cases smtpOk <;> rfl
  constructor
  · intro ht
    rw [hstate]
    rw [mapGet_advanceTo_of_no_due]
    · exact mapGet_mapSet_self s.codes e (generatedCode r)
    · rintro tm hmem hk
      rcases List.mem_append.mp hmem with hmem | hmem
      · exact absurd hk (hfresh tm hmem)
      · simp only [List.mem_singleton] at hmem
        subst hmem
        simpa using Nat.not_le_of_lt ht
  · rw [hstate]
    exact mapGet_advanceTo_of_due _ _ e (e, now + fiveMinutesMs)
      (List.mem_append.mpr (Or.inr (List.mem_singleton_self _))) rfl le_rfl

/-- C2 amended witness: a single send at instant 0, checked just before and
at the five-minute mark. -/
theorem send_code_expiry_amended_witness :
    (299999 < 0 + fiveMinutesMs →
      mapGet (advanceTo (sendVerificationCode ⟨[], []⟩ 0 (some "u@fcbhealth.com") 0
          true).state 299999).codes "u@fcbhealth.com" = some (generatedCode 0)) ∧
    mapGet (advanceTo (sendVerificationCode ⟨[], []⟩ 0 (some "u@fcbhealth.com") 0
        true).state (0 + fiveMinutesMs)).codes "u@fcbhealth.com" = none :=
  send_code_expiry_amended ⟨[], []⟩ 0 299999 "u@fcbhealth.com" 0 true
    (by decide) (by decide) (by intro tm hmem; simp at hmem)

/-- C5: every generated verification code is the decimal string of an integer
between 100000 and 999999 inclusive: exactly six decimal digits, the leading
one nonzero. -/
theorem generated_code_six_digits (r : Nat) (hr : r < 900000) :
    100000 ≤ generatedCodeNat r ∧ generatedCodeNat r ≤ 999999 ∧
    (Nat.digits 10 (generatedCodeNat r)).length = 6 ∧
    (Nat.digits 10 (generatedCodeNat r)).getLast? ≠ some 0 ∧
    generatedCode r = Nat.repr (generatedCodeNat r) := by
  have h₁ : 100000 ≤ generatedCodeNat r := by unfold generatedCodeNat; omega
  have h₂ : generatedCodeNat r ≤ 999999 := by unfold generatedCodeNat; omega
  have hne : generatedCodeNat r ≠ 0 := by omega
  have hlog : Nat.log 10 (generatedCodeNat r) = 5 := by
    have e₅ : (10 : Nat) ^ 5 = 100000 := by norm_num
    have e₆ : (10 : Nat) ^ (5 + 1) = 1000000 := by norm_num
    exact Nat.log_eq_of_pow_le_of_lt_pow (by rw [e₅]; exact h₁) (by rw [e₆]; omega)
  have hlen : (Nat.digits 10 (generatedCodeNat r)).length = 6 := by
    rw [Nat.digits_len 10 _ (by norm_num) hne, hlog]
  have hnil : Nat.digits 10 (generatedCodeNat r) ≠ [] :=
    Nat.digits_ne_nil_iff_ne_zero.mpr hne
  refine ⟨h₁, h₂, hlen, ?_, rfl⟩
  rw [List.getLast?_eq_getLast _ hnil]
  intro hcon
  exact Nat.getLast_digit_ne_zero 10 hne (Option.some.inj hcon)

/-- C5 witness at a concrete random draw. -/
theorem generated_code_six_digits_witness :
    100000 ≤ generatedCodeNat 1 ∧ generatedCodeNat 1 ≤ 999999 ∧
    (Nat.digits 10 (generatedCodeNat 1)).length = 6 ∧
    (Nat.digits 10 (generatedCodeNat 1)).getLast? ≠ some 0 ∧
    generatedCode 1 = Nat.repr (generatedCodeNat 1) :=
  generated_code_six_digits 1 (by decide)

/-- C7: the schedule "0 0 * * *" fires exactly at minute 0 of hour 0, the one
midnight minute of each day, and the job body removes from user_activity
exactly the rows whose login_time is strictly before the run instant, leaving
the admins, urls_snapbox and uploads tables untouched. -/
theorem cleanup_job_spec (db : Db) (now : Nat) (minute hour : Nat) :
    (∀ row, row ∈ (cleanupJob db now).user_activity ↔
        row ∈ db.user_activity ∧ ¬ row.login_time < now) ∧
    (cleanupJob db now).admins = db.admins ∧
    (cleanupJob db now).urls_snapbox = db.urls_snapbox ∧
    (cleanupJob db now).uploads = db.uploads ∧
    (cronFires minute hour = true ↔ minute = 0 ∧ hour = 0) := by
  refine ⟨fun row => ?_, rfl, rfl, rfl, ?_⟩
  · simp [cleanupJob, List.mem_filter]
  · simp [cronFires]

/-- C9: multer silently skips any file of a disallowed mimetype (the handler
then runs with req.file unset), raises the size-limit error on an allowed
file above 25 MB, and otherwise hands the handler exactly the submitted
file, so a populated req.file always has an allowed type and a size within
the limit. -/
theorem multer_config_spec (f g : UpFile) :
    (multerProcess f = .accepted g →
      g = f ∧ f.mimetype ∈ allowedTypes ∧ f.size ≤ fileSizeLimit) ∧
    (f.mimetype ∉ allowedTypes → multerProcess f = .filtered) ∧
    (f.mimetype ∈ allowedTypes → fileSizeLimit < f.size → multerProcess f = .sizeError) := by
  refine ⟨?_, ?_, ?_⟩
  · intro hacc
    by_cases hm : f.mimetype ∈ allowedTypes
    · rw [multerProcess, if_neg (by simp [hm])] at hacc
      by_cases hs : fileSizeLimit < f.size
      · rw [if_pos hs] at hacc
        cases hacc
      · rw [if_neg hs] at hacc
        injection hacc with h
        exact ⟨h.symm, hm, Nat.le_of_not_lt hs⟩
    · rw [multerProcess, if_pos (by simp [hm])] at hacc
      cases hacc
  · intro hm
    rw [multerProcess, if_pos (by simp [hm])]
  · intro hm hs
    rw [multerProcess, if_neg (by simp [hm]), if_pos hs]

/-- C9 witness: a gif upload is silently filtered out. -/
theorem multer_config_spec_witness :
    multerProcess ⟨"x.gif", "image/gif", 10⟩ = .filtered :=
  (multer_config_spec ⟨"x.gif", "image/gif", 10⟩ ⟨"x.gif", "image/gif", 10⟩).2.1
    (by decide)

/-- C10: an /add-admin request whose body has no email field raises a
TypeError out of the handler instead of any response (in particular not the
400 domain response); the domain check runs only when the field is present,
as a present field never raises. -/
theorem add_admin_missing_email_throws (dbOk : Bool) :
    addAdmin none dbOk = .error .typeError ∧
    addAdmin none dbOk ≠ .ok (.badDomain, []) ∧
    ∀ e : String, addAdmin (some e) dbOk ≠ .error .typeError := by
  refine ⟨rfl, by simp [addAdmin], fun e => ?_⟩
  simp only [addAdmin]
  split
  · simp
  · split <;> simp
